import Mathlib

/-!
Shallow embedding of the UDN news scraper core (`UDNNewsScraper.py`):
the article-extraction pipeline `_fetch_article_content` and the
orchestration logic of `scrape` (page-count arithmetic, link collection
with early exit and defensive truncation, per-article extraction loop,
and the boundary exception handling).

Browser/DOM effects are modelled by environments that record, for each
fallible step of the Python code, either the data the page session would
return or the exception it would raise.  Machine integers are `Int`/`Nat`
(Python ints are unbounded).  A Python value that may be `None` is an
`Option`; a dict key that may be absent is an `Option` field.
-/

set_option autoImplicit false

namespace UdnScraper

/-- The site's base URL, `self.base_url` in `UDNNewsScraper.__init__`. -/
def baseUrl : String := "https://udndata.com"

/-- A result-title anchor element on a listing page: its display text and
its `href` attribute (`get_attribute` may return `None`). -/
structure Elem where
  title : String
  href : Option String
  deriving Repr, DecidableEq

/-- The dict returned by `_fetch_article_content`.  The Python code builds
it with keys `News ID`, `Title`, `Date`, `Content`, except on the
navigation-failure and processing-failure paths, where the `News ID` key
is absent; hence `newsId` is an `Option`. -/
structure FetchRecord where
  newsId : Option String
  title : String
  date : String
  content : String
  deriving Repr, DecidableEq

/-- The DOM state relevant to the content-extraction block: for each CSS
selector, the paragraph texts of the first matching container element
(`none` when `query_selector` finds no element), and the body element's
inner text (`none` when there is no body element). -/
structure ContentPage where
  bySelector : String → Option (List String)
  body : Option String

/-- Outcomes of the fallible steps inside `_fetch_article_content`.
`Except.error e` models the corresponding Python block raising an
exception with message `e`. -/
structure FetchEnv where
  /-- An exception raised inside the outer `try` before `page.goto`
  (e.g. by `progress_callback.article_update`). -/
  preNavExc : Option String
  /-- `page.goto(link)` raising (`nav_error`). -/
  navErr : Option String
  /-- An exception inside the news-id `try` block. -/
  newsIdExc : Bool
  /-- The title block: exception, or the `h1` element's text
  (`none` = no `h1` element). -/
  titleStep : Except String (Option String)
  /-- The date block: exception, or the `span.story-source` element's
  text (`none` = no such element). -/
  dateStep : Except String (Option String)
  /-- The content block: exception anywhere inside it, or the page data
  it reads. -/
  contentStep : Except String ContentPage

/-- `re.search(r'news_id=(\d+)', link)`: scan for the first occurrence of
`news_id=` followed by at least one digit; the capture is the maximal
digit run. -/
def findNewsId : List Char → Option String
  | [] => none
  | c :: rest =>
    if List.isPrefixOf "news_id=".toList (c :: rest) then
      let ds := ((c :: rest).drop 8).takeWhile Char.isDigit
      if ds.isEmpty then findNewsId rest else some (String.mk ds)
    else findNewsId rest

/-- `re.search(r'/(\d+)$', link)`: the link ends in `/` followed by at
least one digit; the capture is that trailing digit run. -/
def altNewsId (link : String) : Option String :=
  let rev := link.toList.reverse
  let ds := rev.takeWhile Char.isDigit
  if ds.isEmpty then none
  else match rev.drop ds.length with
    | '/' :: _ => some (String.mk ds.reverse)
    | _ => none

/-- The news-id extraction of `_fetch_article_content` lines 79-87:
primary pattern, then the trailing-segment fallback, else `Unknown ID`. -/
def extractNewsId (link : String) : String :=
  match findNewsId link.toList with
  | some d => d
  | none =>
    match altNewsId link with
    | some d => d
    | none => "Unknown ID"

/-- Does the character list start with the pattern `\d{4}-\d{2}-\d{2}`? -/
def isDatePat : List Char → Bool
  | a :: b :: c :: d :: e :: f :: g :: h :: i :: j :: _ =>
    a.isDigit && b.isDigit && c.isDigit && d.isDigit && e == '-' &&
      f.isDigit && g.isDigit && h == '-' && i.isDigit && j.isDigit
  | _ => false

/-- `re.search(r'(\d{4}-\d{2}-\d{2})', text)`: first position where the
date pattern matches, returning the ten matched characters. -/
def searchDateChars : List Char → Option String
  | [] => none
  | c :: rest =>
    if isDatePat (c :: rest) then some (String.mk ((c :: rest).take 10))
    else searchDateChars rest

/-- Date search on a string. -/
def searchDate (s : String) : Option String :=
  searchDateChars s.toList

/-- `"\n".join(content_parts)` where `content_parts` keeps only truthy
(non-empty) paragraph texts. -/
def joinParagraphs (ps : List String) : String :=
  String.intercalate "\n" (ps.filter (fun p => p ≠ ""))

/-- The fixed selector priority list of `_fetch_article_content`. -/
def selectorChain : List String :=
  ["article", "div.article", "div.content", "div.story"]

/-- The selector loop of lines 121-132: for each selector in order, if an
element matches, join its non-empty paragraph texts; stop at the first
non-empty joined text.  Returns `""` when no selector wins. -/
def tryChain (page : ContentPage) : List String → String
  | [] => ""
  | s :: rest =>
    match page.bySelector s with
    | some ps =>
      let c := joinParagraphs ps
      if c ≠ "" then c else tryChain page rest
    | none => tryChain page rest

/-- The whole content block (lines 112-136): selector chain, then the
body fallback (`body_element.inner_text()` if a body element exists,
else the sentinel). -/
def extractContent (page : ContentPage) : String :=
  let content := tryChain page selectorChain
  if content ≠ "" then content
  else
    match page.body with
    | some b => b
    | none => "Content extraction failed"

/-- The record built by the outer `except` handler of
`_fetch_article_content` (lines 148-152): no `News ID` key. -/
def processingFailedRec (index : Nat) (e : String) : FetchRecord :=
  { newsId := none
    title := s!"Article {index} (processing failed)"
    date := "Unknown date"
    content := "Content extraction failed: " ++ e }

/-- The record built by the navigation-failure handler
(lines 72-76): no `News ID` key. -/
def navFailedRec (index : Nat) (e : String) : FetchRecord :=
  { newsId := none
    title := s!"Article {index} (navigation failed)"
    date := "Unknown date"
    content := "Content extraction failed: " ++ e }

/-- CPython's message for `None.startswith(...)`. -/
def noneTypeMsg : String := "'NoneType' object has no attribute 'startswith'"

/-- Python's `str.startswith`, on the characters of the strings. -/
def pyStartsWith (s pre : String) : Bool :=
  List.isPrefixOf pre.toList s.toList

/-- URL normalization at the top of `_fetch_article_content`
(lines 55-58). -/
def normalizeLink (link : String) : String :=
  if pyStartsWith link "/" then baseUrl ++ link
  else if !pyStartsWith link "http" then baseUrl ++ "/" ++ link
  else link

/-- `_fetch_article_content(link, index, total)`.  A `none` link (a
collected anchor whose `href` was `None`) raises `AttributeError` at
`link.startswith`, caught by the outer handler.  The function is total:
every Python exception is caught inside and degrades to sentinel
fields. -/
def fetchArticleContent (env : FetchEnv) (link : Option String)
    (index : Nat) : FetchRecord :=
  match link with
  | none => processingFailedRec index noneTypeMsg
  | some l =>
    let l := normalizeLink l
    match env.preNavExc with
    | some e => processingFailedRec index e
    | none =>
      match env.navErr with
      | some e => navFailedRec index e
      | none =>
        let newsId := if env.newsIdExc then "Unknown ID" else extractNewsId l
        let title :=
          match env.titleStep with
          | .ok (some t) => t
          | .ok none => s!"Article {index} (title extraction failed)"
          | .error _ => s!"Article {index} (title extraction failed)"
        let date :=
          match env.dateStep with
          | .ok od =>
            match searchDate (od.getD "Unknown date") with
            | some d => d
            | none => "Unknown date"
          | .error _ => "Unknown date"
        let content :=
          match env.contentStep with
          | .ok page => extractContent page
          | .error _ => "Content extraction failed"
        { newsId := some newsId, title := title, date := date, content := content }

/-- Lines 262-266: `calculated_pages`.  `max_articles` is a Python int
(modelled as `Int`); `total_results` comes from a `\d+` regex match (or
defaults to 0), hence a `Nat`.  `math.ceil(m / 20)` on a non-negative
int `m` is `(m + 19) / 20` in natural division. -/
def calculatedPages (totalResults : Nat) (maxArticles : Int) : Nat :=
  if maxArticles < 20 then 1
  else (min totalResults maxArticles.toNat + 19) / 20

/-- Lines 269-272: `total_pages`, applying the `max_pages` clamp only
when `max_pages is not None and max_pages > 0`. -/
def totalPagesCount (totalResults : Nat) (maxArticles : Int)
    (maxPages : Option Int) : Nat :=
  let calculated := calculatedPages totalResults maxArticles
  match maxPages with
  | some mp => if 0 < mp then min calculated mp.toNat else calculated
  | none => calculated

/-- A collected `(title, link)` pair, line 315.  The link is `None` when
`get_attribute('href')` returned `None`. -/
abbrev LinkEntry := String × Option String

/-- Lines 307-315: read an anchor element's text and href and normalize
the href; `if link and link.startswith('/')` resolves only hrefs that
begin with `/` against the base URL. -/
def mkEntry (e : Elem) : LinkEntry :=
  match e.href with
  | some l => (e.title, some (if pyStartsWith l "/" then baseUrl ++ l else l))
  | none => (e.title, none)

/-- The inner element loop of lines 306-320: append each entry, and break
as soon as `len(news_links) >= max_articles` (checked after every
append). -/
def collectPage (elems : List Elem) (maxArticles : Int)
    (acc : List LinkEntry) : List LinkEntry :=
  match elems with
  | [] => acc
  | e :: rest =>
    let acc := acc ++ [mkEntry e]
    if maxArticles ≤ (acc.length : Int) then acc
    else collectPage rest maxArticles acc

/-- The page loop of lines 286-324 over the listed page indices, with the
outer `len(news_links) >= max_articles` break after each page. -/
def collectAll (pages : Nat → List Elem) (maxArticles : Int) :
    List Nat → List LinkEntry → List LinkEntry
  | [], acc => acc
  | p :: rest, acc =>
    let acc := collectPage (pages p) maxArticles acc
    if maxArticles ≤ (acc.length : Int) then acc
    else collectAll pages maxArticles rest acc

/-- Python's `l[:k]` for an int `k`: a non-negative bound takes the first
`k` elements; a negative bound counts from the end (clamped at 0). -/
def pySliceTo {α : Type} (l : List α) (k : Int) : List α :=
  if 0 ≤ k then l.take k.toNat
  else l.take ((l.length : Int) + k).toNat

/-- Lines 286-327: the whole collection phase for a given page map and
final page count, including the defensive truncation
`news_links[:min(len(news_links), max_articles)]`. -/
def collectLinks (pages : Nat → List Elem) (maxArticles : Int)
    (totalPages : Nat) : List LinkEntry :=
  let collected := collectAll pages maxArticles (List.range' 1 totalPages) []
  pySliceTo collected (min (collected.length : Int) maxArticles)

/-- The record appended by the per-article `except` handler of lines
340-346: the original entry's title, sentinel date and content, no
`News ID` key. -/
def loopFailedRec (title : String) (e : String) : FetchRecord :=
  { newsId := none
    title := title
    date := "Unknown date"
    content := "Content extraction failed: " ++ e }

/-- The extraction loop of lines 336-346: `enumerate(news_links, 1)`,
each `_fetch_article_content` call wrapped in `try/except`; a raising
call degrades to `loopFailedRec` with the entry's title. -/
def extractLoop (call : Nat → LinkEntry → Except String FetchRecord) :
    Nat → List LinkEntry → List FetchRecord
  | _, [] => []
  | i, entry :: rest =>
    let r :=
      match call i entry with
      | .ok r => r
      | .error e => loopFailedRec entry.1 e
    r :: extractLoop call (i + 1) rest

/-- Outcomes of the fallible phases of `scrape`, one injection point per
region of the code that can raise. -/
structure ScrapeEnv where
  /-- `_setup_driver()` raising (line 175, outside the `try`). -/
  setupErr : Option String
  /-- The login / search-form / result-count region (lines 181-258)
  raising, or the parsed `total_results`. -/
  searchPhase : Except String Nat
  /-- An exception inside the collection loop (lines 286-327). -/
  collectExc : Option String
  /-- The anchor elements listed on each results page. -/
  pages : Nat → List Elem
  /-- Per-article fetch environments, indexed by loop index. -/
  fetchEnvs : Nat → FetchEnv
  /-- An unexpected exception raised by the `_fetch_article_content`
  call itself at a given loop index (the event the per-article
  `try/except` guards against). -/
  loopExc : Nat → Option String
  /-- An exception in the result-assembly region after the loop
  (lines 352-361). -/
  postExc : Option String

/-- The per-article call made by the loop: either the unexpected
exception the environment injects, or the (total) result of
`_fetch_article_content`. -/
def articleCall (env : ScrapeEnv) : Nat → LinkEntry → Except String FetchRecord :=
  fun i entry =>
    match env.loopExc i with
    | some e => .error e
    | none => .ok (fetchArticleContent (env.fetchEnvs i) entry.2 i)

/-- `scrape(...)` as a function of its failure environment and the two
caps.  `Except.error` models an exception propagating to the caller:
that happens only when `_setup_driver` raises, since the whole body
after it sits in a `try` whose `except` returns the accumulated
`news_data` (as a DataFrame, empty when nothing was accumulated). -/
def scrape (env : ScrapeEnv) (maxPages : Option Int) (maxArticles : Int) :
    Except String (List FetchRecord) :=
  match env.setupErr with
  | some e => .error e
  | none =>
    match env.searchPhase with
    | .error _ => .ok []
    | .ok totalResults =>
      match env.collectExc with
      | some _ => .ok []
      | none =>
        let tp := totalPagesCount totalResults maxArticles maxPages
        let links := collectLinks env.pages maxArticles tp
        let recs := extractLoop (articleCall env) 1 links
        match env.postExc with
        | some _ => .ok recs
        | none => .ok recs

/-! ### Helper lemmas -/

theorem take_app_of_le {α : Type} (l₁ l₂ : List α) {n : Nat}
    (h : n ≤ l₁.length) : (l₁ ++ l₂).take n = l₁.take n := by
  rw [List.take_append_eq_append_take, Nat.sub_eq_zero_of_le h,
    List.take_zero, List.append_nil]

theorem collectPage_characterization {ma : Int} (hma : 1 ≤ ma)
    (elems : List Elem) :
    ∀ acc : List LinkEntry, (acc.length : Int) < ma →
      collectPage elems ma acc = (acc ++ elems.map mkEntry).take ma.toNat := by
  induction elems with
  | nil =>
    intro acc h
    simp only [collectPage, List.map_nil, List.append_nil]
    exact (List.take_of_length_le (by omega)).symm
  | cons e rest ih =>
    intro acc h
    simp only [collectPage, List.map_cons]
    by_cases hc : ma ≤ ((acc ++ [mkEntry e]).length : Int)
    · rw [if_pos hc]
      have hlen : (acc ++ [mkEntry e]).length = ma.toNat := by
        simp only [List.length_append, List.length_cons, List.length_nil] at hc ⊢
        omega
      rw [show acc ++ mkEntry e :: rest.map mkEntry
            = (acc ++ [mkEntry e]) ++ rest.map mkEntry by simp]
      rw [← hlen, List.take_left]
    · rw [if_neg hc]
      push_neg at hc
      rw [ih _ (by simpa using hc)]
      congr 1
      simp

theorem collectAll_characterization {ma : Int} (hma : 1 ≤ ma)
    (pages : Nat → List Elem) (idxs : List Nat) :
    ∀ acc : List LinkEntry, (acc.length : Int) < ma →
      collectAll pages ma idxs acc =
        (acc ++ idxs.flatMap fun p => (pages p).map mkEntry).take ma.toNat := by
  induction idxs with
  | nil =>
    intro acc h
    simp only [collectAll, List.flatMap_nil, List.append_nil]
    exact (List.take_of_length_le (by omega)).symm
  | cons p rest ih =>
    intro acc h
    simp only [collectAll, List.flatMap_cons]
    rw [collectPage_characterization hma _ _ h]
    set A := acc ++ (pages p).map mkEntry with hA
    by_cases hc : ma ≤ (A.length : Int)
    · have htk : (A.take ma.toNat).length = ma.toNat := by
        rw [List.length_take]; omega
      rw [if_pos (by rw [htk]; omega)]
      rw [show acc ++ ((pages p).map mkEntry
            ++ rest.flatMap fun q => (pages q).map mkEntry)
          = A ++ rest.flatMap fun q => (pages q).map mkEntry by simp [hA]]
      exact (take_app_of_le _ _ (by omega)).symm
    · push_neg at hc
      have hAfull : A.take ma.toNat = A := List.take_of_length_le (by omega)
      rw [hAfull, if_neg (by omega), ih _ hc]
      congr 1
      simp [hA]

/-! ### Claims about the page-count arithmetic (C2, C10, part of C7) -/

/-- Claim C2: with the spec's `RunLimits` reading of `max_pages`
(optional and, when provided, strictly positive), the page arithmetic is:
pages = 1 whenever `max_articles < 20`; otherwise
`ceil(min(total_results, max_articles) / 20)`; and a provided `max_pages`
clamps the final count to `min(computed, max_pages)`. -/
theorem listing_page_count_spec (tr : Nat) (ma : Int) (mp : Option Int)
    (hmp : ∀ v, mp = some v → 0 < v) :
    (ma < 20 → calculatedPages tr ma = 1) ∧
    (20 ≤ ma → calculatedPages tr ma = min tr ma.toNat ⌈/⌉ 20) ∧
    (∀ v, mp = some v →
      (totalPagesCount tr ma mp : Int) = min (calculatedPages tr ma : Int) v) ∧
    (mp = none → totalPagesCount tr ma mp = calculatedPages tr ma) := by
  refine ⟨fun h => by simp [calculatedPages, h], fun h => ?_, fun v hv => ?_, fun h => ?_⟩
  · rw [calculatedPages, if_neg (by omega), Nat.ceilDiv_eq_add_pred_div]
    congr 1
  · have hp := hmp v hv
    subst hv
    simp only [totalPagesCount, if_pos hp]
    rw [Nat.cast_min, Int.toNat_of_nonneg hp.le]
  · subst h
    rfl

/-- Witness for C2 at `total_results = 45`, `max_articles = 50`,
`max_pages = 2` (spec scenario A plus the clamp). -/
theorem listing_page_count_witness :
    calculatedPages 45 50 = min 45 (50 : Int).toNat ⌈/⌉ 20 ∧
    (totalPagesCount 45 50 (some 2) : Int) = min (calculatedPages 45 50 : Int) 2 ∧
    calculatedPages 45 50 = 3 ∧ totalPagesCount 45 50 (some 2) = 2 := by
  have h := listing_page_count_spec 45 50 (some 2) (fun v hv => by cases hv; decide)
  exact ⟨h.2.1 (by decide), h.2.2.1 2 rfl, by decide, by decide⟩

/-- Claim C10: a provided but non-positive `max_pages` is ignored by the
clamp: the final page count equals the computed one ("no cap", not
"zero pages"). -/
theorem nonpositive_max_pages_skip (tr : Nat) (ma : Int) (v : Int)
    (hv : v ≤ 0) :
    totalPagesCount tr ma (some v) = calculatedPages tr ma := by
  simp [totalPagesCount, not_lt.mpr hv]

/-- Witness for C10: `max_pages = 0` with 200 results and cap 50 still
yields the computed 3 pages, not 0 pages. -/
theorem nonpositive_max_pages_skip_witness :
    totalPagesCount 200 50 (some 0) = calculatedPages 200 50 ∧
    calculatedPages 200 50 = 3 :=
  ⟨nonpositive_max_pages_skip 200 50 0 (by decide), by decide⟩

/-! ### Claims about link collection (C4, C9, C8) -/

/-- Claim C4: with a positive `max_articles` (the spec's `RunLimits`
invariant), the collected sequence never exceeds `max_articles` entries
and is exactly the `max_articles`-prefix of the stream of entries in
listing order — the early exit stops at the cap instead of finishing the
page and filtering afterwards. -/
theorem collect_cap_early_exit (pages : Nat → List Elem) (ma : Int)
    (tp : Nat) (hma : 1 ≤ ma) :
    ((collectAll pages ma (List.range' 1 tp) []).length : Int) ≤ ma ∧
    collectAll pages ma (List.range' 1 tp) [] =
      ((List.range' 1 tp).flatMap fun p => (pages p).map mkEntry).take ma.toNat := by
  have h := collectAll_characterization hma pages (List.range' 1 tp) []
    (by simpa using hma)
  simp only [List.nil_append] at h
  refine ⟨?_, h⟩
  rw [h, List.length_take]
  omega

/-- Witness for C4: three listing pages of two entries each, cap 3:
exactly 3 entries are collected, the prefix of the 6 available. -/
def pagesW : Nat → List Elem := fun p =>
  if p ≤ 3 then
    [{ title := s!"a{p}", href := some s!"/s?news_id={p}" },
     { title := s!"b{p}", href := none }]
  else []

theorem collect_cap_early_exit_witness :
    ((collectAll pagesW 3 (List.range' 1 3) []).length : Int) ≤ 3 ∧
    collectAll pagesW 3 (List.range' 1 3) [] =
      ((List.range' 1 3).flatMap fun p => (pagesW p).map mkEntry).take (3 : Int).toNat :=
  collect_cap_early_exit pagesW 3 3 (by decide)

theorem collectLinks_no_trunc (pages : Nat → List Elem) (ma : Int)
    (tp : Nat) (hma : 1 ≤ ma) :
    collectLinks pages ma tp = collectAll pages ma (List.range' 1 tp) [] := by
  have h := collectAll_characterization hma pages (List.range' 1 tp) []
    (by simpa using hma)
  simp only [List.nil_append] at h
  have hlen : ((collectAll pages ma (List.range' 1 tp) []).length : Int) ≤ ma := by
    rw [h, List.length_take]; omega
  rw [collectLinks, pySliceTo, if_pos (by omega)]
  rw [min_eq_left hlen, Int.toNat_natCast]
  exact List.take_length _

/-- Claim C9: with a positive `max_articles`, the accumulated count never
passes the cap, so the defensive truncation
`news_links[:min(len(news_links), max_articles)]` removes nothing:
`collectLinks` equals the un-truncated collection. -/
theorem truncation_identity (pages : Nat → List Elem) (ma : Int)
    (tp : Nat) (hma : 1 ≤ ma) :
    collectLinks pages ma tp = collectAll pages ma (List.range' 1 tp) [] :=
  collectLinks_no_trunc pages ma tp hma

/-- Witness for C9 on the three-page environment with cap 3. -/
theorem truncation_identity_witness :
    collectLinks pagesW 3 3 = collectAll pagesW 3 (List.range' 1 3) [] :=
  truncation_identity pagesW 3 3 (by decide)

/-- A listing page whose anchor carries a bare-relative href (no leading
slash). -/
def pagesRel : Nat → List Elem := fun p =>
  if p = 1 then [{ title := "t", href := some "a.html" }] else []

/-- Counterexample to claim C8 as stated: an href that is source-relative
but does not begin with `/` (here `a.html`) is stored verbatim — the
stored URL is not in absolute form (it carries no scheme and was not
resolved against the base origin). -/
theorem stored_link_relative_cex :
    collectLinks pagesRel 5 1 = [("t", some "a.html")] ∧
    pyStartsWith "a.html" "http" = false ∧
    pyStartsWith "a.html" "/" = false ∧
    "a.html" ≠ baseUrl ++ "a.html" := by
  exact ⟨by decide, by decide, by decide, by decide⟩

/-- Claim C8 amended: every stored LinkEntry comes from a result anchor
of one of the visited pages, and its URL is the anchor's href with
exactly the leading-slash hrefs resolved against the base origin; all
other hrefs (already-absolute, bare-relative, or missing) are stored
unchanged.  Full normalization happens only later, inside the Article
Extractor. -/
theorem stored_link_normalization (pages : Nat → List Elem) (ma : Int)
    (tp : Nat) (hma : 1 ≤ ma) :
    ∀ x ∈ collectLinks pages ma tp, ∃ p ∈ List.range' 1 tp, ∃ e ∈ pages p,
      x = mkEntry e ∧
      x.2 = e.href.map fun l => if pyStartsWith l "/" then baseUrl ++ l else l := by
  intro x hx
  rw [collectLinks_no_trunc pages ma tp hma] at hx
  have h := (collectAll_characterization hma pages (List.range' 1 tp) []
    (by simpa using hma))
  simp only [List.nil_append] at h
  rw [h] at hx
  have hx' := List.take_subset _ _ hx
  rw [List.mem_flatMap] at hx'
  obtain ⟨p, hp, hmem⟩ := hx'
  rw [List.mem_map] at hmem
  obtain ⟨e, he, rfl⟩ := hmem
  refine ⟨p, hp, e, he, rfl, ?_⟩
  obtain ⟨t, href⟩ := e
  cases href <;> simp [mkEntry]

/-- Witness for C8 (amended) on a one-page environment: the stored entry
traces back to its anchor and its URL is the slash-resolved href. -/
theorem stored_link_normalization_witness :
    ∃ p ∈ List.range' 1 1, ∃ e ∈ pagesRel p,
      (("t", some "a.html") : LinkEntry) = mkEntry e ∧
      (("t", some "a.html") : LinkEntry).2 =
        e.href.map fun l => if pyStartsWith l "/" then baseUrl ++ l else l :=
  stored_link_normalization pagesRel 5 1 (by decide) ("t", some "a.html") (by decide)

/-! ### Claims about the article extractor (C6, C1) -/

/-- A page with no matching container selector and a body element whose
inner text is empty. -/
def pageEmptyBody : ContentPage :=
  { bySelector := fun _ => none, body := some "" }

/-- Counterexample to claim C6 as stated: when no selector matches and
the body element's text is empty, the content is the empty string, not
the sentinel `Content extraction failed` — the sentinel appears only
when there is no body element at all (or the block raises). -/
theorem content_empty_body_cex :
    (∀ s ∈ selectorChain, pageEmptyBody.bySelector s = none) ∧
    pageEmptyBody.body = some "" ∧
    extractContent pageEmptyBody = "" ∧
    extractContent pageEmptyBody ≠ "Content extraction failed" :=
  ⟨fun _ _ => rfl, rfl, rfl, by decide⟩

/-- Modelled from the amended claim's words: content extraction returns
the joined non-empty paragraph texts of the first selector, in the fixed
priority order, whose joined text is non-empty; when no selector wins it
returns the body element's text when a body element exists (even if that
text is empty), and the sentinel only when there is no body element. -/
def contentFirstNonEmptySpec (page : ContentPage) : String :=
  match selectorChain.findSome? (fun s =>
      match page.bySelector s with
      | some ps =>
        if joinParagraphs ps ≠ "" then some (joinParagraphs ps) else none
      | none => none) with
  | some c => c
  | none =>
    match page.body with
    | some b => b
    | none => "Content extraction failed"

theorem tryChain_findSome (page : ContentPage) (B : String) :
    ∀ l : List String,
      (if tryChain page l ≠ "" then tryChain page l else B) =
        match l.findSome? (fun s =>
            match page.bySelector s with
            | some ps =>
              if joinParagraphs ps ≠ "" then some (joinParagraphs ps) else none
            | none => none) with
        | some c => c
        | none => B := by
  intro l
  induction l with
  | nil => simp [tryChain]
  | cons s rest ih =>
    simp only [tryChain, List.findSome?_cons]
    cases hsel : page.bySelector s with
    | none => simpa using ih
    | some ps =>
      by_cases hj : joinParagraphs ps ≠ ""
      · simp [hj]
      · simpa [hj] using ih

/-- Claim C6 amended: the selector fallback chain tries the fixed
priority order and stops at the first non-empty joined paragraph text;
with no winning selector, content is the body element's text whenever a
body element exists (possibly empty), and equals the sentinel
`Content extraction failed` only when there is no body element. -/
theorem content_chain_characterization (page : ContentPage) :
    extractContent page = contentFirstNonEmptySpec page := by
  rw [extractContent, contentFirstNonEmptySpec]
  exact tryChain_findSome page _ selectorChain

theorem searchDateChars_shape :
    ∀ (cs : List Char) (s : String), searchDateChars cs = some s →
      ∃ ds : List Char, isDatePat ds = true ∧ s = String.mk (ds.take 10) := by
  intro cs
  induction cs with
  | nil => intro s h; simp [searchDateChars] at h
  | cons c rest ih =>
    intro s h
    by_cases hd : isDatePat (c :: rest)
    · refine ⟨c :: rest, hd, ?_⟩
      simp only [searchDateChars, if_pos hd, Option.some.injEq] at h
      exact h.symm
    · simp only [searchDateChars, if_neg hd] at h
      exact ih s h

/-- An environment in which navigation to the article raises. -/
def fetchEnvNavFail : FetchEnv :=
  { preNavExc := none, navErr := some "net::ERR_TIMED_OUT", newsIdExc := false,
    titleStep := .ok none, dateStep := .ok none, contentStep := .error "gone" }

/-- Counterexample to claim C1 as stated: on a navigation failure the
returned dict has no `News ID` key at all, so the record's four fields
are not all populated — `news_id` is absent rather than the `Unknown ID`
sentinel. -/
theorem fetch_record_missing_id :
    (fetchArticleContent fetchEnvNavFail (some "/ndapp/story?news_id=7") 2).newsId
      = none ∧
    (fetchArticleContent fetchEnvNavFail (some "/ndapp/story?news_id=7") 2).title
      = "Article 2 (navigation failed)" ∧
    (fetchArticleContent fetchEnvNavFail (some "/ndapp/story?news_id=7") 2).newsId
      ≠ some "Unknown ID" :=
  ⟨rfl, rfl, by decide⟩

/-- Claim C1 amended: `_fetch_article_content` is total (every internal
failure is caught, modelled by this Lean function being defined on every
environment) and the `Title`, `Date`, `Content` fields are always
populated with extracted data or their documented sentinels; but the
`News ID` field is present exactly on the paths that survive the
pre-navigation steps and the navigation itself — the navigation-failure
and processing-failure records omit it. -/
theorem fetch_record_fields (env : FetchEnv) (link : Option String)
    (index : Nat) :
    (fetchArticleContent env link index).newsId.isSome =
      (link.isSome && env.preNavExc.isNone && env.navErr.isNone) ∧
    ((∃ t, env.titleStep = .ok (some t) ∧
        (fetchArticleContent env link index).title = t) ∨
      (fetchArticleContent env link index).title
        = s!"Article {index} (title extraction failed)" ∨
      (fetchArticleContent env link index).title
        = s!"Article {index} (navigation failed)" ∨
      (fetchArticleContent env link index).title
        = s!"Article {index} (processing failed)") ∧
    ((fetchArticleContent env link index).date = "Unknown date" ∨
      ∃ ds : List Char, isDatePat ds = true ∧
        (fetchArticleContent env link index).date = String.mk (ds.take 10)) ∧
    ((∃ page, env.contentStep = .ok page ∧
        (fetchArticleContent env link index).content = extractContent page) ∨
      (fetchArticleContent env link index).content = "Content extraction failed" ∨
      ∃ e, (fetchArticleContent env link index).content
        = "Content extraction failed: " ++ e) := by
  rcases link with _ | l
  · exact ⟨rfl, Or.inr (Or.inr (Or.inr rfl)), Or.inl rfl,
      Or.inr (Or.inr ⟨noneTypeMsg, rfl⟩)⟩
  rcases hpre : env.preNavExc with _ | e
  · rcases hnav : env.navErr with _ | e
    · refine ⟨?_, ?_, ?_, ?_⟩
      · simp [fetchArticleContent, hpre, hnav]
      · rcases htitle : env.titleStep with e | ot
        · exact Or.inr (Or.inl (by simp [fetchArticleContent, hpre, hnav, htitle]))
        · rcases ot with _ | t
          · exact Or.inr (Or.inl (by simp [fetchArticleContent, hpre, hnav, htitle]))
          · exact Or.inl ⟨t, rfl, by simp [fetchArticleContent, hpre, hnav, htitle]⟩
      · rcases hdate : env.dateStep with e | od
        · exact Or.inl (by simp [fetchArticleContent, hpre, hnav, hdate])
        · rcases hsd : searchDate (od.getD "Unknown date") with _ | s
          · exact Or.inl (by simp [fetchArticleContent, hpre, hnav, hdate,
              searchDate] at hsd ⊢; simp [hsd])
          · obtain ⟨ds, hds, rfl⟩ := searchDateChars_shape _ s hsd
            refine Or.inr ⟨ds, hds, ?_⟩
            simp [fetchArticleContent, hpre, hnav, hdate, searchDate] at hsd ⊢
            simp [hsd]
      · rcases hcontent : env.contentStep with e | page
        · exact Or.inr (Or.inl (by simp [fetchArticleContent, hpre, hnav, hcontent]))
        · exact Or.inl ⟨page, rfl, by simp [fetchArticleContent, hpre, hnav, hcontent]⟩
    · refine ⟨by simp [fetchArticleContent, hpre, hnav, navFailedRec], ?_, ?_, ?_⟩
      · exact Or.inr (Or.inr (Or.inl (by
          simp [fetchArticleContent, hpre, hnav, navFailedRec])))
      · exact Or.inl (by simp [fetchArticleContent, hpre, hnav, navFailedRec])
      · exact Or.inr (Or.inr ⟨e, by
          simp [fetchArticleContent, hpre, hnav, navFailedRec]⟩)
  · refine ⟨by simp [fetchArticleContent, hpre, processingFailedRec], ?_, ?_, ?_⟩
    · exact Or.inr (Or.inr (Or.inr (by
        simp [fetchArticleContent, hpre, processingFailedRec])))
    · exact Or.inl (by simp [fetchArticleContent, hpre, processingFailedRec])
    · exact Or.inr (Or.inr ⟨e, by
        simp [fetchArticleContent, hpre, processingFailedRec]⟩)

/-! ### Claims about the extraction loop and the run boundary (C5, C3) -/

theorem extractLoop_length (call : Nat → LinkEntry → Except String FetchRecord) :
    ∀ (j : Nat) (links : List LinkEntry),
      (extractLoop call j links).length = links.length := by
  intro j links
  induction links generalizing j with
  | nil => rfl
  | cons entry rest ih => simp [extractLoop, ih]

theorem extractLoop_get (call : Nat → LinkEntry → Except String FetchRecord) :
    ∀ (links : List LinkEntry) (j i : Nat) (hi : i < links.length)
      (hi2 : i < (extractLoop call j links).length),
      (extractLoop call j links).get ⟨i, hi2⟩ =
        match call (j + i) (links.get ⟨i, hi⟩) with
        | .ok r => r
        | .error e => loopFailedRec (links.get ⟨i, hi⟩).1 e := by
  intro links
  induction links with
  | nil => intro j i hi _; exact absurd hi (by simp)
  | cons entry rest ih =>
    intro j i hi hi2
    cases i with
    | zero => simp [extractLoop]
    | succ i =>
      have h2 : i < (extractLoop call (j + 1) rest).length := by
        rw [extractLoop_length]
        simpa using hi
      have := ih (j + 1) i (by simpa using hi) h2
      simp only [extractLoop, List.get_cons_succ]
      rw [this]
      have harith : j + 1 + i = j + (i + 1) := by omega
      rw [harith]

/-- Claim C5: the extraction loop produces exactly one `ArticleRecord`
per collected LinkEntry, in order: record `i` is the outcome of calling
the extractor on LinkEntry `i` (1-based call index `i+1`), and an
unexpected extractor-level exception yields at that position the
placeholder record built from the original entry's title. -/
theorem extract_loop_one_to_one
    (call : Nat → LinkEntry → Except String FetchRecord)
    (links : List LinkEntry) :
    (extractLoop call 1 links).length = links.length ∧
    ∀ (i : Nat) (hi : i < links.length)
      (hi2 : i < (extractLoop call 1 links).length),
      (extractLoop call 1 links).get ⟨i, hi2⟩ =
        match call (i + 1) (links.get ⟨i, hi⟩) with
        | .ok r => r
        | .error e => loopFailedRec (links.get ⟨i, hi⟩).1 e := by
  refine ⟨extractLoop_length call 1 links, ?_⟩
  intro i hi hi2
  rw [extractLoop_get call links 1 i hi hi2]
  rw [Nat.add_comm 1 i]

/-- A call map that raises only on the first article. -/
def callW : Nat → LinkEntry → Except String FetchRecord := fun i _ =>
  if i = 1 then .error "boom"
  else .ok { newsId := some "9", title := "t", date := "2024-01-02", content := "c" }

def linksW : List LinkEntry := [("first", some "x"), ("second", none)]

/-- Witness for C5: with two entries and a call that raises on the
first, the loop yields two records and position 0 holds the placeholder
built from the first entry's title. -/
theorem extract_loop_one_to_one_witness :
    (extractLoop callW 1 linksW).length = linksW.length ∧
    (extractLoop callW 1 linksW).get ⟨0, by decide⟩
      = loopFailedRec "first" "boom" := by
  have h := extract_loop_one_to_one callW linksW
  refine ⟨h.1, ?_⟩
  rw [h.2 0 (by decide) (by decide)]
  rfl

/-- Claim C3: the orchestrator catches every exception raised after the
session is opened at its single boundary and still returns the records
accumulated so far — `[]` when the failure precedes the extraction loop,
the loop's records when it follows it — while a `_setup_driver` failure
(session acquisition) propagates as the run's only hard failure. -/
theorem scrape_boundary_partial_results (env : ScrapeEnv) (mp : Option Int)
    (ma : Int) :
    (∀ e, env.setupErr = some e → scrape env mp ma = .error e) ∧
    (env.setupErr = none → ∃ l, scrape env mp ma = .ok l) ∧
    (env.setupErr = none →
      ((∃ e, env.searchPhase = .error e) ∨ ∃ e, env.collectExc = some e) →
      scrape env mp ma = .ok []) ∧
    (∀ tr, env.setupErr = none → env.searchPhase = .ok tr →
      env.collectExc = none →
      scrape env mp ma = .ok (extractLoop (articleCall env) 1
        (collectLinks env.pages ma (totalPagesCount tr ma mp)))) := by
  refine ⟨fun e he => by simp [scrape, he], ?_, ?_, ?_⟩
  · intro hs
    rcases hsearch : env.searchPhase with e | tr
    · exact ⟨[], by simp [scrape, hs, hsearch]⟩
    · rcases hcoll : env.collectExc with _ | e
      · refine ⟨extractLoop (articleCall env) 1
          (collectLinks env.pages ma (totalPagesCount tr ma mp)), ?_⟩
        simp only [scrape, hs, hsearch, hcoll]
        cases env.postExc <;> rfl
      · exact ⟨[], by simp [scrape, hs, hsearch, hcoll]⟩
  · rintro hs (⟨e, he⟩ | ⟨e, he⟩)
    · simp [scrape, hs, he]
    · rcases hsearch : env.searchPhase with e' | tr
      · simp [scrape, hs, hsearch]
      · simp [scrape, hs, hsearch, he]
  · intro tr hs hsearch hcoll
    simp only [scrape, hs, hsearch, hcoll]
    cases env.postExc <;> rfl

/-- Environments witnessing C3: a failed browser launch, and a run whose
search phase raises after the session opened. -/
def envSetupFail : ScrapeEnv :=
  { setupErr := some "no browser", searchPhase := .ok 0, collectExc := none,
    pages := fun _ => [], fetchEnvs := fun _ => fetchEnvNavFail,
    loopExc := fun _ => none, postExc := none }

def envSearchFail : ScrapeEnv :=
  { setupErr := none, searchPhase := .error "fill failed", collectExc := none,
    pages := fun _ => [], fetchEnvs := fun _ => fetchEnvNavFail,
    loopExc := fun _ => none, postExc := none }

/-- Witness for C3: the setup failure propagates; the post-session
failure is converted into an empty record list. -/
theorem scrape_boundary_witness :
    scrape envSetupFail none 50 = .error "no browser" ∧
    scrape envSearchFail none 50 = .ok [] := by
  constructor
  · exact (scrape_boundary_partial_results envSetupFail none 50).1 _ rfl
  · exact (scrape_boundary_partial_results envSearchFail none 50).2.2.1 rfl
      (Or.inl ⟨"fill failed", rfl⟩)

/-! ### Claim C7: zero search results -/

/-- A results page that (inconsistently with a zero total) still lists
one anchor — used to show the `max_articles < 20` path visits it. -/
def pagesCE : Nat → List Elem := fun p =>
  if p = 1 then [{ title := "t1", href := some "/ndapp/story?news_id=7" }] else []

/-- Counterexample to claim C7 as stated: with `total_results = 0` and
`max_articles = 10 < 20`, the computed page count is 1, not
`ceil(0/20) = 0`, and the first listing page is scanned — its anchors
(if any) are collected. -/
theorem zero_results_pages_cex :
    calculatedPages 0 10 = 1 ∧ calculatedPages 0 10 ≠ 0 ∧
    totalPagesCount 0 10 none = 1 ∧
    collectLinks pagesCE 10 (totalPagesCount 0 10 none) =
      [("t1", some "https://udndata.com/ndapp/story?news_id=7")] :=
  ⟨by decide, by decide, by decide, by decide⟩

theorem pySliceTo_nil {α : Type} (k : Int) : pySliceTo ([] : List α) k = [] := by
  rw [pySliceTo]
  split <;> simp

theorem collectAll_nil_pages (pages : Nat → List Elem) (ma : Int) :
    ∀ idxs : List Nat, (∀ p ∈ idxs, pages p = []) →
      collectAll pages ma idxs [] = [] := by
  intro idxs h
  induction idxs with
  | nil => rfl
  | cons p rest ih =>
    have hp : pages p = [] := h p (by simp)
    simp only [collectAll, hp, collectPage]
    split
    · rfl
    · exact ih fun q hq => h q (by simp [hq])

theorem collectLinks_nil_pages (pages : Nat → List Elem) (ma : Int)
    (tp : Nat) (h : ∀ p ∈ List.range' 1 tp, pages p = []) :
    collectLinks pages ma tp = [] := by
  rw [collectLinks, collectAll_nil_pages pages ma _ h, pySliceTo_nil]

/-- Claim C7 amended: with `total_results = 0`, the run returns an empty
record sequence and no error.  When `max_articles ≥ 20` the computed
page count is `ceil(0/20) = 0` and no listing page is processed at all;
when `max_articles < 20` the forced single page is scanned, and since a
zero-result page lists no anchors the outcome is the same empty
sequence. -/
theorem zero_results_empty_run (env : ScrapeEnv) (mp : Option Int) (ma : Int)
    (hs : env.setupErr = none) (hr : env.searchPhase = .ok 0) :
    (20 ≤ ma → scrape env mp ma = .ok []) ∧
    (env.pages 1 = [] → scrape env mp ma = .ok []) := by
  have htp1 : totalPagesCount 0 ma mp ≤ 1 := by
    have hcalc : calculatedPages 0 ma ≤ 1 := by
      rw [calculatedPages]
      split <;> simp
    rcases mp with _ | v
    · exact hcalc
    · simp only [totalPagesCount]
      split
      · exact le_trans (Nat.min_le_left _ _) hcalc
      · exact hcalc
  constructor
  · intro hma
    have htp : totalPagesCount 0 ma mp = 0 := by
      have hcalc : calculatedPages 0 ma = 0 := by
        rw [calculatedPages, if_neg (by omega)]
        simp
      rcases mp with _ | v
      · exact hcalc
      · simp [totalPagesCount, hcalc]
    rcases hcoll : env.collectExc with _ | e
    · have hcl : collectLinks env.pages ma 0 = [] :=
        collectLinks_nil_pages _ _ 0 (by simp)
      simp only [scrape, hs, hr, hcoll, htp, hcl, extractLoop]
      cases env.postExc <;> rfl
    · simp [scrape, hs, hr, hcoll]
  · intro hpages
    rcases hcoll : env.collectExc with _ | e
    · have hcl : collectLinks env.pages ma (totalPagesCount 0 ma mp) = [] := by
        refine collectLinks_nil_pages _ _ _ ?_
        intro p hp
        have : p = 1 := by
          rcases Nat.le_one_iff_eq_zero_or_eq_one.mp htp1 with h0 | h1
          · rw [h0] at hp; simp at hp
          · rw [h1] at hp; simpa using hp
        rw [this, hpages]
      simp only [scrape, hs, hr, hcoll, hcl, extractLoop]
      cases env.postExc <;> rfl
    · simp [scrape, hs, hr, hcoll]

/-- A zero-result run environment: empty listing pages. -/
def envZeroEmpty : ScrapeEnv :=
  { setupErr := none, searchPhase := .ok 0, collectExc := none,
    pages := fun _ => [], fetchEnvs := fun _ => fetchEnvNavFail,
    loopExc := fun _ => none, postExc := none }

/-- Witness for C7 (amended): a zero-result run returns `.ok []` both
for `max_articles = 25` (zero pages) and `max_articles = 10` (one forced
page, empty). -/
theorem zero_results_empty_run_witness :
    scrape envZeroEmpty none 25 = .ok [] ∧
    scrape envZeroEmpty none 10 = .ok [] :=
  ⟨(zero_results_empty_run envZeroEmpty none 25 rfl rfl).1 (by decide),
   (zero_results_empty_run envZeroEmpty none 10 rfl rfl).2 rfl⟩

end UdnScraper
